import Mathlib

/-!
Verification development for the PersonalPortfolio transaction pipeline.

The definitions below are a shallow embedding of the Python sources:
`core/data_quality.py` (normalization), `core/portfolio.py` (aggregation and
valuation) and `data/market_data.py` (price and FX resolution).  Python floats
are modelled as exact rationals (`Rat`), `NaN`/`None` as `Option`/`Cell.na`,
and pandas DataFrames as explicit row lists with a header.  External lookups
(market prices, FX rates) are passed in as function parameters returning
`Option`, where `none` models an unresolved lookup or a raised-and-caught
exception.
-/

/-! ### Executable rational arithmetic

The kernel cannot unfold the compiler-intrinsic `Rat.add`/`Rat.mul`/`Rat.div`
of core Lean, so concrete evaluation (needed to run the embedded program on
witness inputs) would get stuck.  The operations below are the same exact
rational operations, written through `Rat.divInt`, which the kernel executes;
bridge lemmas in the theorem section identify them with `+`, `*`, `/`, `≤`.
-/

/-- Executable rational addition. -/
def qAdd (a b : Rat) : Rat := Rat.divInt (a.num * b.den + b.num * a.den) (a.den * b.den)

/-- Executable rational negation. -/
def qNeg (a : Rat) : Rat := Rat.divInt (-a.num) a.den

/-- Executable rational subtraction. -/
def qSub (a b : Rat) : Rat := qAdd a (qNeg b)

/-- Executable rational multiplication. -/
def qMul (a b : Rat) : Rat := Rat.divInt (a.num * b.num) (a.den * b.den)

/-- Executable rational division (division by zero yields zero, as in `ℚ`). -/
def qDiv (a b : Rat) : Rat := Rat.divInt (a.num * b.den) (a.den * b.num)

/-- Executable `a ≤ b` on rationals. -/
def qLeB (a b : Rat) : Bool := decide (a.num * b.den ≤ b.num * a.den)

/-- Executable `a < b` on rationals. -/
def qLtB (a b : Rat) : Bool := decide (a.num * b.den < b.num * a.den)

/-- Executable `max` on rationals (Python `max`). -/
def qMax (a b : Rat) : Rat := if qLeB a b then b else a

/-- Executable list sum (pandas `sum`, which also returns `0.0` on the empty
or all-missing selection). -/
def qSum (l : List Rat) : Rat := l.foldr qAdd 0

/-! ### Characters and strings

Helpers mirroring the Python string operations used by the sources
(`str.strip`, `str.upper`, `str.lower`, `str.replace` with single-character
patterns).  Strings are processed through their character lists so every
function is structurally recursive and kernel-executable.
-/

/-- Whitespace characters recognised by the model of Python `str.strip`. -/
def isWhitespaceChar (c : Char) : Bool :=
  decide (c = ' ') || decide (c = '\t') || decide (c = '\n') || decide (c = '\r')

/-- Model of Python `str.strip` on a character list. -/
def trimChars (l : List Char) : List Char :=
  ((l.dropWhile isWhitespaceChar).reverse.dropWhile isWhitespaceChar).reverse

/-- Model of Python `str.strip` on strings. -/
def strTrim (s : String) : String :=
  String.mk (trimChars s.data)

/-- Model of Python `str.upper` (ASCII, which covers the source's data). -/
def strUpper (s : String) : String :=
  String.mk (s.data.map Char.toUpper)

/-- Model of Python `str.lower` (ASCII). -/
def strLower (s : String) : String :=
  String.mk (s.data.map Char.toLower)

/-- Lexicographic `≤` on character lists (Python string comparison, by code
point). -/
def charListLe : List Char → List Char → Bool
  | [], _ => true
  | _ :: _, [] => false
  | a :: as, b :: bs => if a = b then charListLe as bs else decide (a < b)

/-- Decimal-digit test on a character. -/
def isDigitChar (c : Char) : Bool :=
  decide (48 ≤ c.toNat) && decide (c.toNat ≤ 57)

/-- Numeric value of a decimal digit character. -/
def digitVal (c : Char) : Nat := c.toNat - 48

/-- Natural number denoted by a list of decimal digit characters. -/
def natOfDigits (l : List Char) : Nat :=
  l.foldl (fun acc c => acc * 10 + digitVal c) 0

/-! ### Decimal parsing and printing

`parseDecimal` models `pd.to_numeric(..., errors="coerce")` on the string
shapes produced by the euro-normalization step: an optional sign, digits, and
at most one decimal point (surrounding whitespace tolerated).  Strings outside
this fragment coerce to `none` (pandas: `NaN`).  `decimalStr` models Python
`str()` on a float whose value is a terminating decimal: integral values print
with a trailing `.0`, otherwise the exact decimal expansion is printed.
-/

/-- Parse an unsigned decimal character list: digits with at most one dot.
The value of `ip.fp` is `(ip * 10 ^ |fp| + fp) / 10 ^ |fp|`, assembled in
`Nat` arithmetic and materialised with one exact `Rat.divInt`. -/
def parseUnsignedDecimal (cs : List Char) : Option Rat :=
  let ip := cs.takeWhile isDigitChar
  let rest := cs.dropWhile isDigitChar
  match rest with
  | [] => if ip.isEmpty then none else some (Rat.divInt (natOfDigits ip) 1)
  | '.' :: fp =>
    if fp.all isDigitChar && !(ip.isEmpty && fp.isEmpty) then
      some (Rat.divInt (natOfDigits ip * 10 ^ fp.length + natOfDigits fp) (10 ^ fp.length : Nat))
    else none
  | _ => none

/-- Model of `pd.to_numeric(s, errors="coerce")` for a single cell string. -/
def parseDecimal (s : String) : Option Rat :=
  match trimChars s.data with
  | '-' :: rest => (parseUnsignedDecimal rest).map qNeg
  | '+' :: rest => parseUnsignedDecimal rest
  | cs => parseUnsignedDecimal cs

/-- Floor of a rational as an integer, executable (`Int.fdiv` floors). -/
def ratFloor (q : Rat) : Int := Int.fdiv q.num q.den

/-- Decimal digits of the fractional part `q` (with `0 ≤ q < 1`), fuelled. -/
def fracDigits : Nat → Rat → List Char
  | 0, _ => []
  | fuel + 1, q =>
    if q = 0 then []
    else
      let d := ratFloor (qMul q 10)
      Nat.digitChar d.toNat :: fracDigits fuel (qSub (qMul q 10) (Rat.divInt d 1))

/-- Decimal rendering of a nonnegative rational, Python-float style. -/
def decimalStrNN (q : Rat) : String :=
  let ip := (ratFloor q).toNat
  let ds := fracDigits 40 (qSub q (Rat.divInt (ratFloor q) 1))
  if ds.isEmpty then toString ip ++ ".0" else toString ip ++ "." ++ String.mk ds

/-- Model of Python `str()` applied to a float value. -/
def decimalStr (q : Rat) : String :=
  if qLtB q 0 then "-" ++ decimalStrNN (qNeg q) else decimalStrNN q

/-! ### DataFrame model

A pandas DataFrame is modelled as a header, per-column dtypes and a list of
rows; each row is a list of cells aligned with the header.  `Cell.na` stands
for any pandas missing value (`NaN`, `None`, `pd.NA`).
-/

/-- A single DataFrame cell. -/
inductive Cell where
  | cs (s : String)
  | cn (q : Rat)
  | cdate (y m d : Nat)
  | na
deriving DecidableEq

/-- Column dtype: `obj` (object/string), `num` (float64), `dt` (datetime). -/
inductive DType where
  | obj
  | num
  | dt
deriving DecidableEq

/-- A pandas DataFrame: header, per-column dtypes and aligned rows. -/
structure DataFrame where
  header : List String
  dtypes : List DType
  rows : List (List Cell)
deriving DecidableEq

/-- The empty DataFrame (`pd.DataFrame()`). -/
def emptyDF : DataFrame := ⟨[], [], []⟩

/-- Zero-pad a natural to two digits (for date rendering). -/
def pad2 (n : Nat) : String :=
  if n < 10 then "0" ++ toString n else toString n

/-- Model of `.astype(str)` on one cell.  A missing value stringifies to a
token no numeric parse accepts, so it coerces back to missing, exactly as in
pandas (`str(nan) = "nan"`, and `to_numeric("nan")` is `NaN` again). -/
def cellToStr : Cell → String
  | Cell.cs s => s
  | Cell.cn q => decimalStr q
  | Cell.cdate y m d => toString y ++ "-" ++ pad2 m ++ "-" ++ pad2 d
  | Cell.na => "nan"

/-- Overwrite column `i` of a DataFrame with `f` applied cellwise, updating
the column dtype (pandas column assignment `df[col] = series`). -/
def setCol (df : DataFrame) (i : Nat) (dty : DType) (f : Cell → Cell) : DataFrame :=
  { df with
    dtypes := df.dtypes.set i dty
    rows := df.rows.map fun row => row.mapIdx fun j cell => if j = i then f cell else cell }

/-- Names of the object-typed columns (`select_dtypes(include=["object", "string"])`). -/
def objColumns (df : DataFrame) : List String :=
  ((df.header.zip df.dtypes).filter fun p => decide (p.2 = DType.obj)).map Prod.fst

/-! ### `convert_euro_numbers` (core/data_quality.py)

European-format normalization of one cell, after `.astype(str)`:
remove `%` (the source removes it column-wide when any cell has one;
per cell this is the identity on percent-free strings), remove all `.`
thousands separators, turn `,` into `.`, parse, and divide by 100 exactly
for the cells that carried a `%` (the source divides through the percent
mask).  A failed parse coerces to missing.
-/

/-- The string rewriting applied to each cell before numeric parsing. -/
def euroNormalize (s : String) : String :=
  String.mk (((s.data.filter fun c => decide (c ≠ '%')).filter fun c =>
    decide (c ≠ '.')).map fun c => if c = ',' then '.' else c)

/-- Conversion of a single (already stringified) cell. -/
def convertEuroCellStr (s : String) : Cell :=
  let isPct := s.data.contains '%'
  match parseDecimal (euroNormalize s) with
  | some v => Cell.cn (if isPct then qDiv v 100 else v)
  | none => Cell.na

/-- Embedding of `convert_euro_numbers(df, columns)`.  `none` for `columns`
selects the object-typed columns, as in the source's default; each requested
column that exists is stringified, rewritten, parsed and becomes numeric. -/
def convertEuroNumbers (df : DataFrame) (columns : Option (List String)) : DataFrame :=
  let cols := match columns with
    | some cs => cs
    | none => objColumns df
  cols.foldl (fun d c =>
    match d.header.indexOf? c with
    | some i => setCol d i DType.num fun cell => convertEuroCellStr (cellToStr cell)
    | none => d) df

/-! ### `clean_transactions` (core/data_quality.py)

The cleaning pipeline.  Each numbered step below embeds one statement group of
the source; the heap model at the end distinguishes pandas operations that
return a fresh object (`rename`, boolean-mask filtering, `convert_euro_numbers`
— which begins with `df.copy()` — and `reset_index`) from in-place column
assignments `df[col] = ...`, which mutate the object currently bound to `df`.
-/

/-- Configuration record mirroring `DataQualityConfig`. -/
structure DataQualityConfig where
  columnMapping : List (String × String)
  numericColumns : List String
  datetimeColumns : List String
  allowedTypes : List (String × String)
  allowedCurrencies : List String

/-- The `DEFAULT_CONFIG` of the source, verbatim. -/
def defaultConfig : DataQualityConfig where
  columnMapping := [
    ("Ticker", "ticker"),
    ("Name", "name"),
    ("Date", "date"),
    ("ISIN", "isin"),
    ("Type", "type"),
    ("Quantity", "quantity"),
    ("Price per Unit", "price_per_unit"),
    ("Price per Unit EUR", "price_per_unit_eur"),
    ("Currency", "currency"),
    ("Gross Amount", "gross_amount"),
    ("Gross Amount EUR", "gross_amount_eur"),
    ("Taxes", "taxes"),
    ("FX Rate", "fx_rate"),
    ("Net Base EUR", "net_base_eur"),
    ("Broker", "broker"),
    ("Asset Type", "asset_type")]
  numericColumns := [
    "quantity", "price_per_unit", "price_per_unit_eur", "gross_amount",
    "gross_amount_eur", "taxes", "fx_rate", "net_base_eur"]
  datetimeColumns := ["date"]
  allowedTypes := [
    ("BUY", "Buy"),
    ("SELL", "Sell"),
    ("DIV", "Dividend"),
    ("DIVIDEND", "Dividend"),
    ("DIVIDEND-REINVESTMENT", "Dividend Reinvestment"),
    ("INTEREST", "Interest"),
    ("PENSION", "Pension")]
  allowedCurrencies := ["CAD", "DKK", "EUR", "USD", "HKD"]

/-- `_to_snake_case`: trim, replace spaces/hyphens/slashes with `_`, lowercase. -/
def toSnakeCase (s : String) : String :=
  strLower (String.mk ((trimChars s.data).map fun c =>
    if c = ' ' || c = '-' || c = '/' then '_' else c))

/-- Step 1: rename columns by explicit mapping with snake-case fallback. -/
def renameStep (cfg : DataQualityConfig) (df : DataFrame) : DataFrame :=
  { df with header := df.header.map fun h =>
      match cfg.columnMapping.lookup h with
      | some v => v
      | none => toSnakeCase h }

/-- Trimming of one object-column cell: strip strings, map the empty string to
a missing value (the source's `map(strip)` followed by `replace("", NA)`). -/
def trimCell : Cell → Cell
  | Cell.cs s =>
    let t := strTrim s
    if t = "" then Cell.na else Cell.cs t
  | c => c

/-- Step 2: trim every cell of the object-typed columns. -/
def trimStep (df : DataFrame) : DataFrame :=
  { df with rows := df.rows.map fun row =>
      List.zipWith (fun dty c => if dty = DType.obj then trimCell c else c) df.dtypes row }

/-- Split a character list at date separators (`/`, `-`, `.`). -/
def splitDateChars (l : List Char) : List (List Char) :=
  l.foldr (fun c acc =>
    if c = '/' || c = '-' || c = '.' then [] :: acc
    else match acc with
      | [] => [[c]]
      | g :: gs => (c :: g) :: gs) [[]]

/-- Parse a list of digit characters as a natural number, if well-formed. -/
def parseNatChars (l : List Char) : Option Nat :=
  if l.isEmpty || !(l.all isDigitChar) then none else some (natOfDigits l)

/-- Day-first date parsing for three numeric components, modelling
`pd.to_datetime(..., errors="coerce", dayfirst=True)` on the string dates this
pipeline receives (a leading four-digit component is read year-first, as
pandas does); anything else coerces to a missing value. -/
def parseDateChars (l : List Char) : Option (Nat × Nat × Nat) :=
  match splitDateChars l with
  | [a, b, c] =>
    match parseNatChars a, parseNatChars b, parseNatChars c with
    | some x, some m, some z =>
      let (y, d) : Nat × Nat := if a.length = 4 then (x, z) else (z, x)
      if 1 ≤ m && m ≤ 12 && 1 ≤ d && d ≤ 31 then some (y, m, d) else none
    | _, _, _ => none
  | _ => none

/-- Datetime conversion of one cell (the `.dt.date` access keeps only the
calendar date, which is all `Cell.cdate` stores). -/
def parseDateCell : Cell → Cell
  | Cell.cs s =>
    match parseDateChars (trimChars s.data) with
    | some (y, m, d) => Cell.cdate y m d
    | none => Cell.na
  | Cell.cdate y m d => Cell.cdate y m d
  | _ => Cell.na

/-- Step 4: convert the configured datetime columns. -/
def dateStep (cfg : DataQualityConfig) (df : DataFrame) : DataFrame :=
  cfg.datetimeColumns.foldl (fun d c =>
    match d.header.indexOf? c with
    | some i => setCol d i DType.dt parseDateCell
    | none => d) df

/-- Type normalization of one cell: strings are trimmed, uppercased and looked
up in the allowed-type mapping; anything else becomes a missing value. -/
def typeCell (cfg : DataQualityConfig) : Cell → Cell
  | Cell.cs s =>
    if strTrim s ≠ "" then
      match cfg.allowedTypes.lookup (strUpper (strTrim s)) with
      | some v => Cell.cs v
      | none => Cell.na
    else Cell.na
  | _ => Cell.na

/-- Step 5a: map the `type` column through the allowed-type table. -/
def typeMapStep (cfg : DataQualityConfig) (df : DataFrame) : DataFrame :=
  match df.header.indexOf? "type" with
  | some i => setCol df i DType.obj (typeCell cfg)
  | none => df

/-- Missing-value test on one cell. -/
def cellIsNa : Cell → Bool
  | Cell.na => true
  | _ => false

/-- Step 5b: drop the rows whose normalized type is missing. -/
def typeFilterStep (df : DataFrame) : DataFrame :=
  match df.header.indexOf? "type" with
  | some i => { df with rows := df.rows.filter fun row => !(cellIsNa (row.getD i Cell.na)) }
  | none => df

/-- Currency normalization of one cell (strings only, as the source guards
with `isinstance(x, str)`). -/
def currencyCell : Cell → Cell
  | Cell.cs s => Cell.cs (strUpper (strTrim s))
  | other => other

/-- Step 6a: uppercase the `currency` column. -/
def currencyMapStep (df : DataFrame) : DataFrame :=
  match df.header.indexOf? "currency" with
  | some i => setCol df i DType.obj currencyCell
  | none => df

/-- Membership of a cell value in the allowed-currency list (`Series.isin`:
missing and non-string values are not members). -/
def currencyAllowed (cfg : DataQualityConfig) : Cell → Bool
  | Cell.cs s => cfg.allowedCurrencies.contains s
  | _ => false

/-- Step 6b: keep only the rows whose currency is in the allowed set. -/
def currencyFilterStep (cfg : DataQualityConfig) (df : DataFrame) : DataFrame :=
  match df.header.indexOf? "currency" with
  | some i =>
    { df with rows := df.rows.filter fun row => currencyAllowed cfg (row.getD i Cell.na) }
  | none => df

/-- The placeholder test of step 7: `gross_amount` zero after `fillna(0)`. -/
def grossIsZero : Cell → Bool
  | Cell.cn q => decide (q = 0)
  | Cell.na => true
  | _ => false

/-- Step 7: drop placeholder rows (zero gross amount, no ticker, no name),
only when all three columns are present. -/
def placeholderStep (df : DataFrame) : DataFrame :=
  match df.header.indexOf? "gross_amount", df.header.indexOf? "ticker",
      df.header.indexOf? "name" with
  | some gi, some ti, some ni =>
    { df with rows := df.rows.filter fun row =>
        !(grossIsZero (row.getD gi Cell.na) && cellIsNa (row.getD ti Cell.na) &&
          cellIsNa (row.getD ni Cell.na)) }
  | _, _, _ => df

/-- Step 8: `reset_index(drop=True)`; the row list is already positional. -/
def resetIndexStep (df : DataFrame) : DataFrame := df

/-- One operation of the cleaning pipeline as seen by the heap: `write`
mutates the DataFrame object currently bound to `df` in place (column
assignment), `rebind` binds `df` to a freshly allocated result object. -/
inductive HeapStep where
  | write (f : DataFrame → DataFrame)
  | rebind (f : DataFrame → DataFrame)

/-- Apply one step to a heap of DataFrame objects and the current `df` ref. -/
def applyStep : HeapStep → List DataFrame × Nat → List DataFrame × Nat
  | HeapStep.write f, (h, r) => (h.set r (f (h.getD r emptyDF)), r)
  | HeapStep.rebind f, (h, r) => (h ++ [f (h.getD r emptyDF)], h.length)

/-- Run a list of pipeline steps. -/
def runSteps (steps : List HeapStep) (st : List DataFrame × Nat) :
    List DataFrame × Nat :=
  steps.foldl (fun acc s => applyStep s acc) st

/-- The statement sequence of `clean_transactions` after the initial copy.
Consecutive in-place column assignments of one source statement group are
combined into a single `write`; `convert_euro_numbers` allocates its own copy
first, so from the caller's heap it is a `rebind`. -/
def cleanStepList (cfg : DataQualityConfig) : List HeapStep := [
  HeapStep.rebind (renameStep cfg),
  HeapStep.write trimStep,
  HeapStep.rebind fun df => convertEuroNumbers df (some cfg.numericColumns),
  HeapStep.write (dateStep cfg),
  HeapStep.write (typeMapStep cfg),
  HeapStep.rebind typeFilterStep,
  HeapStep.write currencyMapStep,
  HeapStep.rebind (currencyFilterStep cfg),
  HeapStep.rebind placeholderStep,
  HeapStep.rebind resetIndexStep]

/-- Embedding of `clean_transactions(transactions, config)` with an explicit
heap: `heap` holds the live DataFrame objects and `r` is the caller's
reference to the input.  A missing reference models passing `None`.  The
result is the final heap together with the reference holding the cleaned
frame.  The first action on a usable input is `df = transactions.copy()`,
an allocation; every later mutation targets the copy or its successors. -/
def cleanTransactionsHeap (cfg : DataQualityConfig) (heap : List DataFrame)
    (r : Nat) : List DataFrame × Nat :=
  match heap[r]? with
  | none => (heap ++ [emptyDF], heap.length)
  | some t =>
    if t.rows.isEmpty then (heap ++ [emptyDF], heap.length)
    else runSteps (cleanStepList cfg) (heap ++ [t], heap.length)

/-! ### Canonical transactions and `_prepare_transaction_summary`
(core/portfolio.py)

The aggregator reads the cleaned table through five required concepts.  The
typed row below carries exactly the columns `_prepare_transaction_summary`
touches; `cols` records which columns the DataFrame structurally has, so that
a missing column is distinct from a column of missing values.  `Option`
models pandas missing values.
-/

/-- Canonical transaction types produced by the normalizer. -/
inductive TType where
  | Buy
  | Sell
  | Dividend
  | DividendReinvestment
  | Interest
  | Pension
deriving DecidableEq

/-- One canonical transaction row. -/
structure Tx where
  ticker : Option String
  currency : Option String
  name : Option String
  quantity : Option Rat
  price_per_unit_eur : Option Rat
  gross_amount_eur : Option Rat
  ttype : Option TType
deriving DecidableEq

/-- The cleaned transactions DataFrame as the aggregator sees it. -/
structure TxTable where
  cols : List String
  rows : List Tx
deriving DecidableEq

/-- The required column set of `_prepare_transaction_summary`, listed in
sorted order so that filtering it yields the sorted missing-column list the
source logs (`", ".join(sorted(missing_columns))`). -/
def requiredColumns : List String :=
  ["gross_amount_eur", "name", "price_per_unit_eur", "quantity", "type"]

/-- The required columns structurally absent from the table. -/
def missingColumns (t : TxTable) : List String :=
  requiredColumns.filter fun c => !(t.cols.contains c)

/-- Positive-quantity test on an optional quantity (`NaN > 0` is false). -/
def qtyPositive : Option Rat → Bool
  | some q => qLtB 0 q
  | none => false

/-- The three row filters of the source: non-null `name`, non-null
`quantity`, `quantity > 0`. -/
def filteredRows (t : TxTable) : List Tx :=
  (((t.rows.filter fun r => r.name.isSome).filter fun r =>
    r.quantity.isSome).filter fun r => qtyPositive r.quantity)

/-- Effective per-unit price: `price_per_unit_eur`, falling back to
`gross_amount_eur / quantity` with a zero quantity guarded to missing. -/
def effectivePrice (r : Tx) : Option Rat :=
  match r.price_per_unit_eur with
  | some p => some p
  | none =>
    match r.gross_amount_eur, r.quantity with
    | some g, some q => if q = 0 then none else some (qDiv g q)
    | _, _ => none

/-- Row amount: `quantity * effective_price_eur` (missing if either is). -/
def amountEur (r : Tx) : Option Rat :=
  match r.quantity, effectivePrice r with
  | some q, some p => some (qMul q p)
  | _, _ => none

/-- The filtered rows of the group named `n`. -/
def groupRows (t : TxTable) (n : String) : List Tx :=
  (filteredRows t).filter fun r => decide (r.name = some n)

/-- Insert into a ≤-sorted list of strings (lexicographic on code points,
like Python string ordering used by the pandas groupby key sort). -/
def insertSortedStr (s : String) : List String → List String
  | [] => [s]
  | t :: ts => if charListLe s.data t.data then s :: t :: ts else t :: insertSortedStr s ts

/-- Sort a list of strings (pandas `groupby` sorts the group keys). -/
def sortStrings : List String → List String
  | [] => []
  | s :: ss => insertSortedStr s (sortStrings ss)

/-- The distinct group names, sorted as `groupby("name")` returns them. -/
def groupNames (t : TxTable) : List String :=
  sortStrings ((filteredRows t).filterMap Tx.name).dedup

/-- `_calculate_weighted_average`: zero quantities are replaced by missing
before the division, so a zero total quantity yields a missing average. -/
def calculateWeightedAverage (totalAmount totalQuantity : Rat) : Option Rat :=
  if totalQuantity = 0 then none else some (qDiv totalAmount totalQuantity)

/-- One security aggregate, i.e. one row of the summary DataFrame. -/
structure Aggregate where
  name : String
  ticker : Option String
  currency : Option String
  buyQty : Rat
  buyAmt : Rat
  buyTx : Nat
  sellQty : Rat
  sellAmt : Rat
  sellTx : Nat
  totalInvested : Rat
  shares : Rat
  avgBuy : Option Rat
  avgSell : Option Rat
deriving DecidableEq

/-- The aggregate row for group `n`: group sums for the Buy and Sell
partitions (a side with no rows contributes zero via the left-merge plus
`fillna(0)` of the source), first non-null ticker/currency as metadata, and
the derived fields of the final `assign`. -/
def mkAggregate (t : TxTable) (n : String) : Aggregate :=
  let g := groupRows t n
  let buys := g.filter fun r => decide (r.ttype = some TType.Buy)
  let sells := g.filter fun r => decide (r.ttype = some TType.Sell)
  let bq := qSum (buys.filterMap Tx.quantity)
  let ba := qSum (buys.filterMap amountEur)
  let sq := qSum (sells.filterMap Tx.quantity)
  let sa := qSum (sells.filterMap amountEur)
  { name := n
    ticker := (g.filterMap Tx.ticker).head?
    currency := (g.filterMap Tx.currency).head?
    buyQty := bq
    buyAmt := ba
    buyTx := (buys.filter fun r => r.quantity.isSome).length
    sellQty := sq
    sellAmt := sa
    sellTx := (sells.filter fun r => r.quantity.isSome).length
    totalInvested := ba
    shares := qSub bq sq
    avgBuy := calculateWeightedAverage ba bq
    avgSell := calculateWeightedAverage sa sq }

/-- Log line of the `None`/empty early return. -/
def warnNoTransactions : String :=
  "No transactions loaded before preparing transaction summary"

/-- Log line of the missing-column early return. -/
def missingColumnsMsg (missing : List String) : String :=
  "Cannot prepare transaction summary; missing columns: " ++
    String.intercalate ", " missing

/-- Log line of the no-positive-quantity early return. -/
def infoNoPositiveQuantity : String :=
  "No transactions with positive quantity available for summary"

/-- Log line of the no-Buy-no-Sell early return. -/
def infoNoBuySell : String := "No BUY or SELL transactions available for summary"

/-- Embedding of `_prepare_transaction_summary`.  The input is optional
(`self._transactions_df is None`); the result is the aggregate list together
with the log lines the call emits. -/
def prepareTransactionSummary (t? : Option TxTable) :
    List Aggregate × List String :=
  match t? with
  | none => ([], [warnNoTransactions])
  | some t =>
    if t.rows.isEmpty then ([], [warnNoTransactions])
    else if !(missingColumns t).isEmpty then ([], [missingColumnsMsg (missingColumns t)])
    else if (filteredRows t).isEmpty then ([], [infoNoPositiveQuantity])
    else if !((filteredRows t).any fun r => decide (r.ttype = some TType.Buy)) &&
        !((filteredRows t).any fun r => decide (r.ttype = some TType.Sell)) then
      ([], [infoNoBuySell])
    else ((groupNames t).map (mkAggregate t), [])

/-! ### Price and FX resolution (core/portfolio.py, data/market_data.py) -/

/-- Embedding of `_get_current_price(ticker, manual_values)`.  The market
provider is a parameter returning `none` for an unresolved quote; the manual
prices are an association list (`ticker in manual_values` then lookup). -/
def getCurrentPrice (provider : String → Option Rat)
    (manual : List (String × Rat)) (ticker : String) : Option Rat :=
  match provider ticker with
  | some price => some price
  | none =>
    match manual.lookup ticker with
    | some manualPrice => some manualPrice
    | none => none

/-- Embedding of `get_exchange_rate(from_currency, to_currency)`.  The
external rate service is a parameter; `none` models a fetch that raised or
timed out, which the source catches and converts to the `1.0` default.
Identical currencies return `1.0` before any lookup happens. -/
def getExchangeRate (fxLookup : String → String → Option Rat)
    (fromCurrency toCurrency : String) : Rat :=
  if fromCurrency = toCurrency then 1
  else
    match fxLookup fromCurrency toCurrency with
    | some rate => rate
    | none => 1

/-! ### `calculate_stock_view` (core/portfolio.py) -/

/-- Python truthiness of the optional ticker in `if remaining_qty > 0 and
ticker:` (`None` and the empty string are falsy). -/
def tickerTruthy : Option String → Bool
  | none => false
  | some s => !(s == "")

/-- Half-even rounding of a rational to an integer (Python `round`,
idealised to the exact rational value). -/
def halfEvenRound (q : Rat) : Int :=
  let f := ratFloor q
  let frac := qSub q (Rat.divInt f 1)
  if qLtB frac (Rat.divInt 1 2) then f
  else if qLtB (Rat.divInt 1 2) frac then f + 1
  else if f % 2 = 0 then f else f + 1

/-- `round(value, 2)`. -/
def round2 (q : Rat) : Rat := qDiv (Rat.divInt (halfEvenRound (qMul q 100)) 1) 100

/-- `_round_or_nan`: round if present, keep missing as missing. -/
def roundOrNan (v : Option Rat) : Option Rat := v.map round2

/-- The position-status block of the source (`if remaining_qty > 0 and
sell_qty > 0` / `elif remaining_qty > 0` / `else`). -/
def positionStatus (remaining sellQty : Rat) : String :=
  if qLtB 0 remaining && qLtB 0 sellQty then "Partially Closed"
  else if qLtB 0 remaining then "Open"
  else "Closed"

/-- One row of the stock view result. -/
structure StockRow where
  name : String
  weightedAvgBuyPriceEur : Option Rat
  weightedAvgSellPriceEur : Option Rat
  currentPriceEur : Option Rat
  profitPct : Option Rat
  profitEur : Option Rat
  realizedValueEur : Rat
  unrealizedValueEur : Option Rat
  totalValueEur : Option Rat
  sharesOutstanding : Rat
  posStatus : String
deriving DecidableEq

/-- The valuation of one aggregate row inside `calculate_stock_view`.
`none` plays the role of `np.nan` for the optional monetary fields. -/
def stockViewRow (provider : String → Option Rat)
    (manual : List (String × Rat)) (fxLookup : String → String → Option Rat)
    (agg : Aggregate) : StockRow :=
  let currency := match agg.currency with
    | some c => if c = "" then "EUR" else c
    | none => "EUR"
  let remaining := qMax (qSub agg.buyQty agg.sellQty) 0
  let realized := agg.sellAmt
  let invested := agg.totalInvested
  let pricedPair : Option Rat × Option Rat :=
    if qLtB 0 remaining && tickerTruthy agg.ticker then
      match getCurrentPrice provider manual (agg.ticker.getD "") with
      | some marketPrice =>
        let cp := qMul marketPrice (getExchangeRate fxLookup currency "EUR")
        (some cp, some (qMul remaining cp))
      | none => (none, none)
    else if qLeB remaining 0 then (none, some 0)
    else (none, none)
  let currentPriceEur := pricedPair.1
  let unrealizedPre := pricedPair.2
  let unrealized := if unrealizedPre.isNone && qLeB remaining 0 then some 0 else unrealizedPre
  let total : Option Rat :=
    match unrealized with
    | some u => some (qAdd realized u)
    | none => if qLtB 0 remaining then none else some realized
  let profit : Option Rat :=
    match total with
    | some tv => if qLtB 0 invested then some (qSub tv invested) else none
    | none => none
  let profitPct : Option Rat := profit.map fun p => qMul (qDiv p invested) 100
  { name := agg.name
    weightedAvgBuyPriceEur := roundOrNan agg.avgBuy
    weightedAvgSellPriceEur := roundOrNan agg.avgSell
    currentPriceEur := roundOrNan currentPriceEur
    profitPct := roundOrNan profitPct
    profitEur := roundOrNan profit
    realizedValueEur := round2 realized
    unrealizedValueEur := roundOrNan unrealized
    totalValueEur := roundOrNan total
    sharesOutstanding := round2 remaining
    posStatus := positionStatus remaining agg.sellQty }

/-- Sorted insertion of stock rows by name (`sort_values("Name")`). -/
def insertByName (r : StockRow) : List StockRow → List StockRow
  | [] => [r]
  | s :: ss =>
    if charListLe r.name.data s.name.data then r :: s :: ss else s :: insertByName r ss

/-- Sort stock rows by name. -/
def sortByName : List StockRow → List StockRow
  | [] => []
  | r :: rs => insertByName r (sortByName rs)

/-- Embedding of `calculate_stock_view(manual_values)`: one valuation row per
aggregate, sorted by name. -/
def calculateStockView (provider : String → Option Rat)
    (manual : List (String × Rat)) (fxLookup : String → String → Option Rat)
    (t? : Option TxTable) : List StockRow :=
  sortByName (((prepareTransactionSummary t?).1).map (stockViewRow provider manual fxLookup))

/-! ### Example inputs used by concrete theorems -/

/-- A Buy row for security `A` (ticker `AAA`, EUR). -/
def txBuyA : Tx :=
  { ticker := some "AAA", currency := some "EUR", name := some "A",
    quantity := some 1, price_per_unit_eur := some 1, gross_amount_eur := none,
    ttype := some TType.Buy }

/-- A Dividend-only row for security `B`, with positive quantity. -/
def txDivB : Tx :=
  { ticker := some "BBB", currency := some "EUR", name := some "B",
    quantity := some 1, price_per_unit_eur := some 1, gross_amount_eur := none,
    ttype := some TType.Dividend }

/-- Canonical table with one Buy group `A` and one Dividend-only group `B`. -/
def exTable1 : TxTable :=
  { cols := ["ticker", "currency", "name", "quantity", "price_per_unit_eur",
      "gross_amount_eur", "type"],
    rows := [txBuyA, txDivB] }

/-- Table for an open, partially sold position: Buy 10 at 100, Sell 4 at 120. -/
def exTable2 : TxTable :=
  { cols := ["ticker", "currency", "name", "quantity", "price_per_unit_eur",
      "gross_amount_eur", "type"],
    rows := [
      { ticker := some "ACME", currency := some "EUR", name := some "A",
        quantity := some 10, price_per_unit_eur := some 100,
        gross_amount_eur := none, ttype := some TType.Buy },
      { ticker := some "ACME", currency := some "EUR", name := some "A",
        quantity := some 4, price_per_unit_eur := some 120,
        gross_amount_eur := none, ttype := some TType.Sell }] }

/-- Table for a fully closed position: Buy 2 at 10, Sell 2 at 12. -/
def exTable3 : TxTable :=
  { cols := ["ticker", "currency", "name", "quantity", "price_per_unit_eur",
      "gross_amount_eur", "type"],
    rows := [
      { ticker := some "AAA", currency := some "EUR", name := some "A",
        quantity := some 2, price_per_unit_eur := some 10,
        gross_amount_eur := none, ttype := some TType.Buy },
      { ticker := some "AAA", currency := some "EUR", name := some "A",
        quantity := some 2, price_per_unit_eur := some 12,
        gross_amount_eur := none, ttype := some TType.Sell }] }

/-- A nonempty table missing four of the five required concepts. -/
def exTableMissing : TxTable := { cols := ["name"], rows := [txBuyA] }

/-- One object column of European-formatted strings. -/
def exEuroDF : DataFrame :=
  { header := ["amount"], dtypes := [DType.obj],
    rows := [[Cell.cs "1.234,56"], [Cell.cs "12,5%"], [Cell.cs "abc"]] }

/-- One column already holding float values. -/
def exFloatDF : DataFrame :=
  { header := ["gross_amount_eur"], dtypes := [DType.num],
    rows := [[Cell.cn (Rat.divInt 123456 100)], [Cell.cn 10]] }

/-! ## Theorems

Bridge lemmas first: the executable rational operations agree with the
`Mathlib` field structure on `ℚ`, so algebraic claims can be reasoned about
with ordinary arithmetic while concrete inputs still evaluate.
-/

theorem qAdd_eq (a b : Rat) : qAdd a b = a + b := by
  rw [qAdd]
  conv_rhs => rw [← Rat.num_divInt_den a, ← Rat.num_divInt_den b]
  rw [Rat.divInt_add_divInt _ _
    (Int.natCast_ne_zero.2 a.den_nz) (Int.natCast_ne_zero.2 b.den_nz)]

theorem qNeg_eq (a : Rat) : qNeg a = -a := by
  rw [qNeg, ← Rat.neg_divInt, Rat.num_divInt_den]

theorem qSub_eq (a b : Rat) : qSub a b = a - b := by
  rw [qSub, qAdd_eq, qNeg_eq, sub_eq_add_neg]

theorem qMul_eq (a b : Rat) : qMul a b = a * b := by
  rw [qMul]
  conv_rhs => rw [← Rat.num_divInt_den a, ← Rat.num_divInt_den b]
  rw [Rat.divInt_mul_divInt']

theorem qDiv_eq (a b : Rat) : qDiv a b = a / b := by
  rw [qDiv, div_eq_mul_inv, Rat.inv_def']
  conv_rhs => rw [← Rat.num_divInt_den a]
  rw [Rat.divInt_mul_divInt']

theorem qLeB_iff (a b : Rat) : qLeB a b = true ↔ a ≤ b := by
  rw [qLeB, decide_eq_true_eq]
  exact Rat.le_def.symm

theorem qLtB_iff (a b : Rat) : qLtB a b = true ↔ a < b := by
  rw [qLtB, decide_eq_true_eq]
  exact Rat.lt_def.symm

theorem qMax_eq (a b : Rat) : qMax a b = max a b := by
  rw [qMax, max_def a b]
  by_cases h : a ≤ b
  · rw [if_pos ((qLeB_iff a b).2 h), if_pos h]
  · rw [if_neg (fun hb => h ((qLeB_iff a b).1 hb)), if_neg h]

theorem qSum_eq (l : List Rat) : qSum l = l.sum := by
  induction l with
  | nil => rfl
  | cons x xs ih =>
    show qAdd x (qSum xs) = (x :: xs).sum
    rw [qAdd_eq, ih, List.sum_cons]

/-! ### Heap preservation: `clean_transactions` never mutates its input -/

theorem runSteps_preserve (steps : List HeapStep) :
    ∀ (h : List DataFrame) (r i : Nat), i < r → r ≤ h.length →
      (runSteps steps (h, r)).1[i]? = h[i]? ∧
      i < (runSteps steps (h, r)).2 ∧
      (runSteps steps (h, r)).2 ≤ (runSteps steps (h, r)).1.length := by
  induction steps with
  | nil => exact fun h r i hir hrl => ⟨rfl, hir, hrl⟩
  | cons s rest ih =>
    intro h r i hir hrl
    cases s with
    | write f =>
      have hstep : runSteps (HeapStep.write f :: rest) (h, r) =
          runSteps rest (h.set r (f (h.getD r emptyDF)), r) := rfl
      rw [hstep]
      have hrec := ih (h.set r (f (h.getD r emptyDF))) r i hir
        (by rw [List.length_set]; exact hrl)
      refine ⟨hrec.1.trans ?_, hrec.2⟩
      exact List.getElem?_set_ne (by omega)
    | rebind f =>
      have hstep : runSteps (HeapStep.rebind f :: rest) (h, r) =
          runSteps rest (h ++ [f (h.getD r emptyDF)], h.length) := rfl
      rw [hstep]
      have hil : i < h.length := lt_of_lt_of_le hir hrl
      have hrec := ih (h ++ [f (h.getD r emptyDF)]) h.length i hil
        (by simp)
      refine ⟨hrec.1.trans ?_, hrec.2⟩
      rw [List.getElem?_append]
      simp [hil]

/-- Claim C10: `clean_transactions` never mutates its input.  In the explicit
heap model, every object that existed before the call — in particular the
caller's raw table at reference `i` — is unchanged in the heap the call
returns: all renaming, trimming, parsing and row-dropping happen on the copy
allocated by `df = transactions.copy()` (and on the further fresh objects the
pipeline rebinds `df` to). -/
theorem clean_transactions_preserves_input (cfg : DataQualityConfig)
    (heap : List DataFrame) (r i : Nat) (hi : i < heap.length) :
    ((cleanTransactionsHeap cfg heap r).1)[i]? = heap[i]? := by
  unfold cleanTransactionsHeap
  have happ : ∀ v : DataFrame, (heap ++ [v])[i]? = heap[i]? := by
    intro v
    rw [List.getElem?_append]
    simp [hi]
  cases hget : heap[r]? with
  | none => exact happ emptyDF
  | some t =>
    by_cases hrows : t.rows.isEmpty
    · simp only [hrows, if_true]
      exact happ emptyDF
    · simp only [hrows, if_false]
      have hrun := runSteps_preserve (cleanStepList cfg) (heap ++ [t]) heap.length i hi
        (by simp)
      exact hrun.1.trans (happ t)

/-- Witness for C10 at a concrete one-frame heap. -/
theorem clean_transactions_preserves_input_witness :
    ((cleanTransactionsHeap defaultConfig [exEuroDF] 0).1)[0]? = some exEuroDF :=
  (clean_transactions_preserves_input defaultConfig [exEuroDF] 0 0 (by decide)).trans rfl

/-! ### Euro-format numeric normalization (C2, C9) -/

/-- Claim C2: on a configured numeric column, `"1.234,56"` parses to exactly
`1234.56` and `"12,5%"` to exactly `0.125` (percent sign removed and the
value divided by 100, all dots removed, comma turned into a dot), while a
cell that fails to parse becomes missing instead of raising — the conversion
is total and, on any string whose normalized form does not parse, returns the
missing value. -/
theorem convert_euro_numbers_parses_european_formats :
    (convertEuroNumbers exEuroDF (some ["amount"])).rows =
      [[Cell.cn (1234.56 : Rat)], [Cell.cn (0.125 : Rat)], [Cell.na]] ∧
    (∀ s : String, parseDecimal (euroNormalize s) = none →
      convertEuroCellStr s = Cell.na) := by
  constructor
  · have h1 : (1234.56 : Rat) = Rat.divInt 123456 100 := by
      rw [Rat.divInt_eq_div]; norm_num
    have h2 : (0.125 : Rat) = Rat.divInt 125 1000 := by
      rw [Rat.divInt_eq_div]; norm_num
    rw [h1, h2]
    decide
  · intro s hs
    simp only [convertEuroCellStr, hs]

/-- Witness for the conditional part of C2 at the concrete unparseable cell
`"abc"`. -/
theorem convert_euro_numbers_parses_european_formats_witness :
    parseDecimal (euroNormalize "abc") = none ∧ convertEuroCellStr "abc" = Cell.na :=
  ⟨by decide, convert_euro_numbers_parses_european_formats.2 "abc" (by decide)⟩

/-- Claim C9: the conversion stringifies every cell before parsing, so a cell
already holding a float is reinterpreted: its decimal point is stripped as a
thousands separator.  The input column holds the floats `1234.56` and `10.0`;
the output holds `123456.0` and `100.0`. -/
theorem convert_euro_numbers_stringifies_floats :
    Rat.divInt 123456 100 = (1234.56 : Rat) ∧
    (convertEuroNumbers exFloatDF (some ["gross_amount_eur"])).rows =
      [[Cell.cn 123456], [Cell.cn 100]] := by
  constructor
  · rw [Rat.divInt_eq_div]; norm_num
  · decide

/-! ### Price and FX resolution (C5, C6) -/

/-- Claim C5: price resolution first attempts the market provider; exactly
when the provider is unresolved it falls back to the manual map (so the
result then is whatever the manual lookup gives, present or not), and the
result is unresolved precisely when both sources are.  The function is total,
so no case raises. -/
theorem get_current_price_resolution (provider : String → Option Rat)
    (manual : List (String × Rat)) (ticker : String) :
    (∀ p, provider ticker = some p →
      getCurrentPrice provider manual ticker = some p) ∧
    (provider ticker = none →
      getCurrentPrice provider manual ticker = manual.lookup ticker) ∧
    (getCurrentPrice provider manual ticker = none ↔
      provider ticker = none ∧ manual.lookup ticker = none) := by
  unfold getCurrentPrice
  cases hp : provider ticker with
  | some p => simp
  | none =>
    cases hm : manual.lookup ticker with
    | some m => simp
    | none => simp

/-- Witness for C5: a failing provider falls back to the manual price. -/
theorem get_current_price_resolution_witness :
    getCurrentPrice (fun _ => none) [("AAPL", (5 : Rat))] "AAPL" = some 5 ∧
    getCurrentPrice (fun _ => some 7) [("AAPL", (5 : Rat))] "AAPL" = some 7 :=
  ⟨((get_current_price_resolution (fun _ => none) [("AAPL", (5 : Rat))] "AAPL").2.1
      rfl).trans (by decide),
    (get_current_price_resolution (fun _ => some 7) [("AAPL", (5 : Rat))] "AAPL").1
      7 rfl⟩

/-- Claim C6: `get_exchange_rate` returns exactly `1.0` for identical
currency codes without consulting the external lookup (the result does not
depend on it), and returns exactly `1.0` when the external lookup fails. -/
theorem get_exchange_rate_defaults (fxLookup : String → String → Option Rat)
    (a b : String) :
    (a = b → getExchangeRate fxLookup a b = 1 ∧
      ∀ other : String → String → Option Rat,
        getExchangeRate fxLookup a b = getExchangeRate other a b) ∧
    (fxLookup a b = none → getExchangeRate fxLookup a b = 1) := by
  unfold getExchangeRate
  by_cases hab : a = b
  · refine ⟨fun _ => ⟨by rw [if_pos hab], fun other => by rw [if_pos hab, if_pos hab]⟩,
      fun hl => by rw [if_pos hab]⟩
  · refine ⟨fun h => absurd h hab, fun hl => ?_⟩
    rw [if_neg hab, hl]

/-- Witness for C6: equal codes need no lookup; a failing lookup yields 1. -/
theorem get_exchange_rate_defaults_witness :
    getExchangeRate (fun _ _ => none) "EUR" "EUR" = 1 ∧
    getExchangeRate (fun _ _ => none) "EUR" "EUR" =
      getExchangeRate (fun _ _ => some 7) "EUR" "EUR" ∧
    getExchangeRate (fun _ _ => none) "USD" "EUR" = 1 :=
  ⟨((get_exchange_rate_defaults (fun _ _ => none) "EUR" "EUR").1 rfl).1,
    ((get_exchange_rate_defaults (fun _ _ => none) "EUR" "EUR").1 rfl).2
      (fun _ _ => some 7),
    (get_exchange_rate_defaults (fun _ _ => none) "USD" "EUR").2 rfl⟩

/-! ### Shape of the aggregate output -/

theorem mem_insertSortedStr (a s : String) (l : List String) :
    a ∈ insertSortedStr s l ↔ a = s ∨ a ∈ l := by
  induction l with
  | nil => simp [insertSortedStr]
  | cons t ts ih =>
    cases h : charListLe s.data t.data with
    | true => simp [insertSortedStr, h]
    | false =>
      simp only [insertSortedStr, h, Bool.false_eq_true, if_false, List.mem_cons, ih]
      tauto

theorem mem_sortStrings (a : String) (l : List String) :
    a ∈ sortStrings l ↔ a ∈ l := by
  induction l with
  | nil => simp [sortStrings]
  | cons s ss ih => simp [sortStrings, mem_insertSortedStr, ih]

theorem mem_groupNames {t : TxTable} {n : String} :
    n ∈ groupNames t ↔ n ∈ (filteredRows t).filterMap Tx.name := by
  rw [groupNames, mem_sortStrings, List.mem_dedup]

/-- Every aggregate the summary emits is `mkAggregate` of some group name. -/
theorem mem_prepare_aggregates {t? : Option TxTable} {agg : Aggregate}
    (h : agg ∈ (prepareTransactionSummary t?).1) :
    ∃ t, t? = some t ∧ ∃ n ∈ groupNames t, agg = mkAggregate t n := by
  match t? with
  | none => simp [prepareTransactionSummary] at h
  | some t =>
    refine ⟨t, rfl, ?_⟩
    by_cases h1 : t.rows.isEmpty
    · simp [prepareTransactionSummary, h1] at h
    · by_cases h2 : (missingColumns t).isEmpty
      · by_cases h3 : (filteredRows t).isEmpty
        · simp [prepareTransactionSummary, h1, h2, h3] at h
        · cases hcond : ((!((filteredRows t).any fun r => decide (r.ttype = some TType.Buy))) &&
              (!((filteredRows t).any fun r => decide (r.ttype = some TType.Sell)))) with
          | true => simp [prepareTransactionSummary, h1, h2, h3, hcond] at h
          | false =>
            simp only [prepareTransactionSummary, h1, h2, h3, hcond, Bool.false_eq_true,
              Bool.not_true, if_false, if_true, List.isEmpty_iff] at h
            obtain ⟨n, hn, he⟩ := List.mem_map.1 h
            exact ⟨n, hn, he.symm⟩
      · simp [prepareTransactionSummary, h1, h2] at h

/-! ### Aggregate algebra (C4) -/

/-- Claim C4: for every aggregate the summary produces, `shares_outstanding`
equals `buy_quantity - sell_quantity` exactly; each weighted average equals
the side's amount divided by its quantity when that quantity is nonzero and
is missing — never infinite — when it is zero; and whenever the buy average
is defined, multiplying it back by `buy_quantity` recovers `buy_amount_eur`
exactly. -/
theorem aggregate_invariants (t? : Option TxTable) (agg : Aggregate)
    (hmem : agg ∈ (prepareTransactionSummary t?).1) :
    agg.shares = agg.buyQty - agg.sellQty ∧
    agg.avgBuy = (if agg.buyQty = 0 then none else some (agg.buyAmt / agg.buyQty)) ∧
    agg.avgSell = (if agg.sellQty = 0 then none else some (agg.sellAmt / agg.sellQty)) ∧
    (∀ w, agg.avgBuy = some w → w * agg.buyQty = agg.buyAmt) := by
  obtain ⟨t, -, n, hn, rfl⟩ := mem_prepare_aggregates hmem
  refine ⟨qSub_eq _ _, ?_, ?_, ?_⟩
  · show calculateWeightedAverage (mkAggregate t n).buyAmt (mkAggregate t n).buyQty = _
    unfold calculateWeightedAverage
    rw [qDiv_eq]
  · show calculateWeightedAverage (mkAggregate t n).sellAmt (mkAggregate t n).sellQty = _
    unfold calculateWeightedAverage
    rw [qDiv_eq]
  · intro w hw
    by_cases hbq : (mkAggregate t n).buyQty = 0
    · have hnone : (mkAggregate t n).avgBuy = none := by
        show calculateWeightedAverage (mkAggregate t n).buyAmt (mkAggregate t n).buyQty = none
        unfold calculateWeightedAverage
        rw [if_pos hbq]
      rw [hnone] at hw
      exact absurd hw (by simp)
    · have hsome : (mkAggregate t n).avgBuy =
          some ((mkAggregate t n).buyAmt / (mkAggregate t n).buyQty) := by
        show calculateWeightedAverage (mkAggregate t n).buyAmt (mkAggregate t n).buyQty = _
        unfold calculateWeightedAverage
        rw [if_neg hbq, qDiv_eq]
      rw [hsome] at hw
      rw [← Option.some.inj hw]
      exact div_mul_cancel₀ _ hbq

/-- Witness for C4 at a concrete two-transaction table (`avgBuy = 100`). -/
theorem aggregate_invariants_witness :
    (100 : Rat) * (mkAggregate exTable2 "A").buyQty = (mkAggregate exTable2 "A").buyAmt :=
  (aggregate_invariants (some exTable2) (mkAggregate exTable2 "A") (by decide)).2.2.2
    100 (by decide)

/-! ### Valuation of closed positions (C3) and position status (C7) -/

theorem stockViewRow_unrealized_of_nonpos (provider : String → Option Rat)
    (manual : List (String × Rat)) (fxLookup : String → String → Option Rat)
    (agg : Aggregate) (h : agg.buyQty - agg.sellQty ≤ 0) :
    (stockViewRow provider manual fxLookup agg).unrealizedValueEur = some 0 := by
  have hrem : qMax (qSub agg.buyQty agg.sellQty) 0 = 0 := by
    rw [qMax_eq, qSub_eq]
    exact max_eq_right h
  have hlt : qLtB 0 (0 : Rat) = false := rfl
  have hle : qLeB (0 : Rat) 0 = true := rfl
  have h20 : round2 (0 : Rat) = 0 := by decide
  simp [stockViewRow, hrem, hlt, hle, roundOrNan, h20]

/-- Claim C3: every valuation row produced for an aggregate whose
`shares_outstanding` is non-positive (remaining quantity clamps to zero) has
`unrealized_value_eur` exactly `0`, whatever the price provider, manual
prices and FX lookup do. -/
theorem stock_view_closed_position_unrealized_zero (t? : Option TxTable)
    (provider : String → Option Rat) (manual : List (String × Rat))
    (fxLookup : String → String → Option Rat) (agg : Aggregate)
    (hmem : agg ∈ (prepareTransactionSummary t?).1) (hcl : agg.shares ≤ 0) :
    (stockViewRow provider manual fxLookup agg).unrealizedValueEur = some 0 := by
  obtain ⟨t, -, n, hn, rfl⟩ := mem_prepare_aggregates hmem
  refine stockViewRow_unrealized_of_nonpos _ _ _ _ ?_
  have hs : (mkAggregate t n).shares =
      (mkAggregate t n).buyQty - (mkAggregate t n).sellQty := qSub_eq _ _
  rw [← hs]
  exact hcl

/-- Witness for C3: a fully closed concrete position with a resolvable price
still reports zero unrealized value. -/
theorem stock_view_closed_position_unrealized_zero_witness :
    (stockViewRow (fun _ => some 5) [] (fun _ _ => some 2)
      (mkAggregate exTable3 "A")).unrealizedValueEur = some 0 :=
  stock_view_closed_position_unrealized_zero (some exTable3) (fun _ => some 5) []
    (fun _ _ => some 2) (mkAggregate exTable3 "A") (by decide) (by decide)

/-- Claim C7: position status is decided in tie-break order on the clamped
remaining quantity: remaining `> 0` with positive sell quantity is
`Partially Closed`; otherwise remaining `> 0` is `Open`; otherwise
`Closed`. -/
theorem stock_view_position_status (provider : String → Option Rat)
    (manual : List (String × Rat)) (fxLookup : String → String → Option Rat)
    (agg : Aggregate) :
    ((0 : Rat) < max (agg.buyQty - agg.sellQty) 0 → 0 < agg.sellQty →
      (stockViewRow provider manual fxLookup agg).posStatus = "Partially Closed") ∧
    ((0 : Rat) < max (agg.buyQty - agg.sellQty) 0 → agg.sellQty ≤ 0 →
      (stockViewRow provider manual fxLookup agg).posStatus = "Open") ∧
    (max (agg.buyQty - agg.sellQty) 0 ≤ (0 : Rat) →
      (stockViewRow provider manual fxLookup agg).posStatus = "Closed") := by
  have hps : (stockViewRow provider manual fxLookup agg).posStatus =
      positionStatus (qMax (qSub agg.buyQty agg.sellQty) 0) agg.sellQty := rfl
  have hq : qMax (qSub agg.buyQty agg.sellQty) 0 = max (agg.buyQty - agg.sellQty) 0 := by
    rw [qMax_eq, qSub_eq]
  refine ⟨fun h1 h2 => ?_, fun h1 h2 => ?_, fun h1 => ?_⟩
  · have hb1 : qLtB 0 (qMax (qSub agg.buyQty agg.sellQty) 0) = true :=
      (qLtB_iff _ _).2 (by rw [hq]; exact h1)
    have hb2 : qLtB 0 agg.sellQty = true := (qLtB_iff _ _).2 h2
    rw [hps]
    simp [positionStatus, hb1, hb2]
  · have hb1 : qLtB 0 (qMax (qSub agg.buyQty agg.sellQty) 0) = true :=
      (qLtB_iff _ _).2 (by rw [hq]; exact h1)
    have hb2 : qLtB 0 agg.sellQty = false :=
      Bool.eq_false_iff.2 fun hT => absurd ((qLtB_iff _ _).1 hT) (not_lt.2 h2)
    rw [hps]
    simp [positionStatus, hb1, hb2]
  · have hb1 : qLtB 0 (qMax (qSub agg.buyQty agg.sellQty) 0) = false :=
      Bool.eq_false_iff.2 fun hT =>
        absurd ((qLtB_iff _ _).1 hT) (by rw [hq]; exact not_lt.2 h1)
    rw [hps]
    simp [positionStatus, hb1]

/-- Witness for C7: 10 bought, 4 sold gives `Partially Closed`. -/
theorem stock_view_position_status_witness :
    (stockViewRow (fun _ => none) [] (fun _ _ => none)
      (mkAggregate exTable2 "A")).posStatus = "Partially Closed" :=
  (stock_view_position_status (fun _ => none) [] (fun _ _ => none)
    (mkAggregate exTable2 "A")).1
    (by
      have hb : (mkAggregate exTable2 "A").buyQty = 10 := by decide
      have hs : (mkAggregate exTable2 "A").sellQty = 4 := by decide
      rw [hb, hs]
      norm_num)
    (by
      have hs : (mkAggregate exTable2 "A").sellQty = 4 := by decide
      rw [hs]
      norm_num)

/-! ### Groups without Buy/Sell activity (C1) -/

/-- Counterexample to Claim C1 as stated: in `exTable1` the group `B` has
only a Dividend row (no Buy, no Sell), yet because another group has Buy
activity, `B` appears in the aggregate output (with zero buy/sell
transaction counts).  The metadata table lists every group and the buy/sell
aggregates are left-merged onto it, so only a globally Buy/Sell-free input
produces an empty output. -/
theorem dividend_only_group_excluded_counterexample :
    (groupRows exTable1 "B").all
      (fun r => !(decide (r.ttype = some TType.Buy)) &&
        !(decide (r.ttype = some TType.Sell))) = true ∧
    ((prepareTransactionSummary (some exTable1)).1).map Aggregate.name = ["A", "B"] ∧
    (prepareTransactionSummary (some exTable1)).1.any
      (fun a => decide (a.name = "B") && decide (a.buyTx = 0) &&
        decide (a.sellTx = 0)) = true := by
  refine ⟨by decide, by decide, by decide⟩

/-- Claim C1 (amended): a group with no Buy and no Sell rows is excluded
from the aggregate output only when no group at all has Buy or Sell rows —
then the output is entirely empty.  Otherwise such a group does appear, with
all six buy/sell aggregates equal to zero. -/
theorem dividend_only_group_excluded_amended (t : TxTable) :
    ((∀ r ∈ filteredRows t, r.ttype ≠ some TType.Buy ∧ r.ttype ≠ some TType.Sell) →
      (prepareTransactionSummary (some t)).1 = []) ∧
    (∀ n ∈ groupNames t,
      (∀ r ∈ groupRows t n, r.ttype ≠ some TType.Buy ∧ r.ttype ≠ some TType.Sell) →
      missingColumns t = [] →
      (∃ r ∈ filteredRows t, r.ttype = some TType.Buy ∨ r.ttype = some TType.Sell) →
      ∃ agg ∈ (prepareTransactionSummary (some t)).1,
        agg.name = n ∧ agg.buyQty = 0 ∧ agg.buyAmt = 0 ∧ agg.buyTx = 0 ∧
        agg.sellQty = 0 ∧ agg.sellAmt = 0 ∧ agg.sellTx = 0) := by
  constructor
  · intro hall
    have hbuy : ((filteredRows t).any fun r => decide (r.ttype = some TType.Buy)) = false :=
      Bool.eq_false_iff.2 fun hT => by
        obtain ⟨r, hr, hp⟩ := List.any_eq_true.1 hT
        exact absurd (of_decide_eq_true hp) (hall r hr).1
    have hsell : ((filteredRows t).any fun r => decide (r.ttype = some TType.Sell)) = false :=
      Bool.eq_false_iff.2 fun hT => by
        obtain ⟨r, hr, hp⟩ := List.any_eq_true.1 hT
        exact absurd (of_decide_eq_true hp) (hall r hr).2
    by_cases h1 : t.rows.isEmpty
    · simp [prepareTransactionSummary, h1]
    · by_cases h2 : (missingColumns t).isEmpty
      · by_cases h3 : (filteredRows t).isEmpty
        · simp [prepareTransactionSummary, h1, h2, h3]
        · simp [prepareTransactionSummary, h1, h2, h3, hbuy, hsell]
      · simp [prepareTransactionSummary, h1, h2]
  · intro n hn hg hmc hex
    have hnf : n ∈ (filteredRows t).filterMap Tx.name := mem_groupNames.1 hn
    have h3 : (filteredRows t).isEmpty = false :=
      Bool.eq_false_iff.2 fun hT => by
        rw [List.isEmpty_iff.1 hT] at hnf
        simp at hnf
    have h1 : t.rows.isEmpty = false :=
      Bool.eq_false_iff.2 fun hT => by
        have hrows : t.rows = [] := List.isEmpty_iff.1 hT
        have hfil : filteredRows t = [] := by simp [filteredRows, hrows]
        rw [hfil] at h3
        simp at h3
    have h2 : (missingColumns t).isEmpty = true := by rw [hmc]; rfl
    have hcond : ((!((filteredRows t).any fun r => decide (r.ttype = some TType.Buy))) &&
        (!((filteredRows t).any fun r => decide (r.ttype = some TType.Sell)))) = false := by
      obtain ⟨r, hr, hor⟩ := hex
      rcases hor with hb | hs
      · have : ((filteredRows t).any fun r => decide (r.ttype = some TType.Buy)) = true :=
          List.any_eq_true.2 ⟨r, hr, decide_eq_true hb⟩
        simp [this]
      · have : ((filteredRows t).any fun r => decide (r.ttype = some TType.Sell)) = true :=
          List.any_eq_true.2 ⟨r, hr, decide_eq_true hs⟩
        simp [this]
    have hps : (prepareTransactionSummary (some t)).1 = (groupNames t).map (mkAggregate t) := by
      simp [prepareTransactionSummary, h1, h2, h3, hcond]
    have hbuys : (groupRows t n).filter (fun r => decide (r.ttype = some TType.Buy)) = [] :=
      List.filter_eq_nil_iff.2 fun r hr => by
        simp only [decide_eq_true_eq]
        exact (hg r hr).1
    have hsells : (groupRows t n).filter (fun r => decide (r.ttype = some TType.Sell)) = [] :=
      List.filter_eq_nil_iff.2 fun r hr => by
        simp only [decide_eq_true_eq]
        exact (hg r hr).2
    refine ⟨mkAggregate t n, ?_, rfl, ?_, ?_, ?_, ?_, ?_, ?_⟩
    · rw [hps]
      exact List.mem_map_of_mem _ hn
    · show qSum (((groupRows t n).filter fun r =>
          decide (r.ttype = some TType.Buy)).filterMap Tx.quantity) = 0
      rw [hbuys]
      rfl
    · show qSum (((groupRows t n).filter fun r =>
          decide (r.ttype = some TType.Buy)).filterMap amountEur) = 0
      rw [hbuys]
      rfl
    · show (((groupRows t n).filter fun r =>
          decide (r.ttype = some TType.Buy)).filter fun r => r.quantity.isSome).length = 0
      rw [hbuys]
      rfl
    · show qSum (((groupRows t n).filter fun r =>
          decide (r.ttype = some TType.Sell)).filterMap Tx.quantity) = 0
      rw [hsells]
      rfl
    · show qSum (((groupRows t n).filter fun r =>
          decide (r.ttype = some TType.Sell)).filterMap amountEur) = 0
      rw [hsells]
      rfl
    · show (((groupRows t n).filter fun r =>
          decide (r.ttype = some TType.Sell)).filter fun r => r.quantity.isSome).length = 0
      rw [hsells]
      rfl

/-- Witness for the amended C1: the Dividend-only group `B` of `exTable1`
appears in the output with all-zero buy/sell aggregates. -/
theorem dividend_only_group_excluded_amended_witness :
    ∃ agg ∈ (prepareTransactionSummary (some exTable1)).1,
      agg.name = "B" ∧ agg.buyQty = 0 ∧ agg.buyAmt = 0 ∧ agg.buyTx = 0 ∧
      agg.sellQty = 0 ∧ agg.sellAmt = 0 ∧ agg.sellTx = 0 :=
  (dividend_only_group_excluded_amended exTable1).2 "B" (by decide) (by decide)
    (by decide) (by decide)

/-! ### Structurally missing required columns (C8) -/

/-- Claim C8: when any of the required concepts (`name`, `quantity`,
`price_per_unit_eur`, `gross_amount_eur`, `type`) is structurally absent,
the aggregation returns an empty result together with a diagnostic instead
of raising or producing partial output; moreover, whenever the table has
rows, that diagnostic is the message listing the sorted missing columns. -/
theorem prepare_missing_columns_empty_result (t : TxTable)
    (hmiss : missingColumns t ≠ []) :
    (prepareTransactionSummary (some t)).1 = [] ∧
    (prepareTransactionSummary (some t)).2 ≠ [] ∧
    (t.rows ≠ [] →
      (prepareTransactionSummary (some t)).2 =
        [missingColumnsMsg (missingColumns t)]) := by
  by_cases h1 : t.rows.isEmpty
  · have hrows : t.rows = [] := List.isEmpty_iff.1 h1
    refine ⟨?_, ?_, fun hne => absurd hrows hne⟩ <;> simp [prepareTransactionSummary, h1]
  · have h2 : (missingColumns t).isEmpty = false :=
      Bool.eq_false_iff.2 fun hT => hmiss (List.isEmpty_iff.1 hT)
    refine ⟨?_, ?_, fun _ => ?_⟩ <;> simp [prepareTransactionSummary, h1, h2]

/-- Witness for C8 at a concrete nonempty table missing four required
columns. -/
theorem prepare_missing_columns_empty_result_witness :
    (prepareTransactionSummary (some exTableMissing)).1 = [] ∧
    (prepareTransactionSummary (some exTableMissing)).2 =
      [missingColumnsMsg (missingColumns exTableMissing)] :=
  ⟨(prepare_missing_columns_empty_result exTableMissing (by decide)).1,
    (prepare_missing_columns_empty_result exTableMissing (by decide)).2.2 (by decide)⟩
